import Mathlib

/-!
Verification development for the fused quantized attention module
(`gptq/quant/fused_attention.py`): the q/k/v fusion builder `make_quant_attn`
and the fused operator `QuantLlamaAttention`.

Three shallow embeddings are used, each faithful to the aspect of the source
it settles:

* a value-level model of the fusion builder (tensors as rational matrices,
  `torch.cat(dim=1)` with its dim-0 size check);
* a stride/storage model of the view operations on the forward path
  (lines 92-118), tracking storage identity only, to settle the cache
  aliasing property;
* a value-level model of the forward computation over real-valued shaped
  tensors, with every shape check of the source mirrored as an `Except`
  error.
-/

namespace GPTQ

/-! ## Part A: fusion builder (`make_quant_attn`, source lines 11-46)

A 2-D tensor is a list of rows of rationals.  `torch.cat([a,b,c], dim=1)`
requires the non-concatenated dimension (dim 0, the row count) to agree and
appends the rows pairwise; on disagreement it raises a runtime shape error.
-/

structure Mat where
  rows : List (List ℚ)
deriving DecidableEq

inductive FusionErr
  /-- torch runtime error raised by `torch.cat(dim=1)` when dim-0 sizes differ. -/
  | catShape
deriving DecidableEq

/-- Column-wise concatenation of three matrices (total version, used for the
result value once the dim-0 check has passed). -/
def catCols3 (a b c : Mat) : Mat :=
  ⟨List.zipWith (· ++ ·) (List.zipWith (· ++ ·) a.rows b.rows) c.rows⟩

/-- `torch.cat([a, b, c], dim=1)`: all tensors must have the same dim-0 size. -/
def Mat.cat3 (a b c : Mat) : Except FusionErr Mat :=
  if a.rows.length = b.rows.length ∧ a.rows.length = c.rows.length then
    .ok (catCols3 a b c)
  else .error .catShape

/-- One quantized linear layer (`QuantLinear`).  Modelled from the spec:
the class itself lives in `gptq/quant/quant_linear.py`, which is not part of
the sources here; per the spec's data model a QuantizedProjection carries
bit-width, group size, input/output feature counts, packed weight blob,
zero-point blob, per-group scale blob, and an optional bias. -/
structure QuantLinear where
  bits : ℕ
  groupsize : ℕ
  infeatures : ℕ
  outfeatures : ℕ
  qweight : Mat
  qzeros : Mat
  scales : Mat
  bias : Option Mat
deriving DecidableEq

/-- The unfused attention module's projections (the only attributes of
`LlamaAttention` that the fusion builder reads for the fusion itself). -/
structure LlamaAttention where
  q_proj : QuantLinear
  k_proj : QuantLinear
  v_proj : QuantLinear
deriving DecidableEq

/-- A node of the model's module tree, linearized in traversal order
(`model.named_modules()`).  `setattr(parent, child_name, attn)` replaces the
node in place, which the list model renders as replacing the element. -/
inductive NNModule
  | llama (m : LlamaAttention)
  | quantAttn (qkv : QuantLinear)
  | other (tag : ℕ)
deriving DecidableEq

/-- The fused layer built at source lines 23-31 (total version): blobs are the
dim-1 concatenations in order q, k, v; the scalar parameters are taken from
`q_proj` alone; `bias=False` at construction and `qkv_layer.bias = None`. -/
def fusedQKV (m : LlamaAttention) : QuantLinear :=
  { bits := m.q_proj.bits
    groupsize := m.q_proj.groupsize
    infeatures := m.q_proj.infeatures
    outfeatures := m.q_proj.outfeatures + m.k_proj.outfeatures + m.v_proj.outfeatures
    qweight := catCols3 m.q_proj.qweight m.k_proj.qweight m.v_proj.qweight
    qzeros := catCols3 m.q_proj.qzeros m.k_proj.qzeros m.v_proj.qzeros
    scales := catCols3 m.q_proj.scales m.k_proj.scales m.v_proj.scales
    bias := none }

/-- Source lines 23-31: the three `torch.cat(..., dim=1)` calls followed by the
`QuantLinear` construction.  No comparison of bits / groupsize / infeatures is
performed anywhere; the only possible failure is the `torch.cat` dim-0 check. -/
def fuseQKV (m : LlamaAttention) : Except FusionErr QuantLinear := do
  let qw ← Mat.cat3 m.q_proj.qweight m.k_proj.qweight m.v_proj.qweight
  let qz ← Mat.cat3 m.q_proj.qzeros m.k_proj.qzeros m.v_proj.qzeros
  let sc ← Mat.cat3 m.q_proj.scales m.k_proj.scales m.v_proj.scales
  .ok { bits := m.q_proj.bits
        groupsize := m.q_proj.groupsize
        infeatures := m.q_proj.infeatures
        outfeatures := m.q_proj.outfeatures + m.k_proj.outfeatures + m.v_proj.outfeatures
        qweight := qw
        qzeros := qz
        scales := sc
        bias := none }

/-- Source lines 15-46: iterate over the module tree, fusing every
`LlamaAttention` node in place.  Python mutates while iterating and an
exception propagates out of the loop, so on failure the nodes already
processed remain replaced; the function returns the tree as left behind
together with the error, if any. -/
def make_quant_attn : List NNModule → List NNModule × Option FusionErr
  | [] => ([], none)
  | NNModule.llama m :: rest =>
    match fuseQKV m with
    | .error e => (NNModule.llama m :: rest, some e)
    | .ok fused =>
      let r := make_quant_attn rest
      (NNModule.quantAttn fused :: r.1, r.2)
  | NNModule.quantAttn q :: rest =>
    let r := make_quant_attn rest
    (NNModule.quantAttn q :: r.1, r.2)
  | NNModule.other t :: rest =>
    let r := make_quant_attn rest
    (NNModule.other t :: r.1, r.2)

/-! ## Part B: storage/stride model of the forward view operations
(source lines 92-118), for the cache-ownership property.

A `SView` is a torch tensor seen at the storage level: which allocation it
reads, at which offset, and with which sizes/strides.  Data content is
irrelevant to aliasing, so it is not tracked.  Storage id 0 is the fresh
output buffer of `self.qkv_proj(hidden_states)` (line 92); every arithmetic
op (rotary embedding, `torch.cat`) allocates a fresh storage, while
`split`/`view`/`transpose` return views and `.contiguous()` returns the very
same tensor when the stride layout is already row-major contiguous. -/

structure SView where
  storage : ℕ
  offset : ℕ
  sizes : List ℕ
  strides : List ℕ
deriving DecidableEq

/-- Row-major contiguous strides for the given sizes. -/
def contigStrides : List ℕ → List ℕ
  | [] => []
  | _ :: rest => rest.prod :: contigStrides rest

/-- torch's `is_contiguous` scan, right-to-left over (size, stride) pairs:
dims of size 1 are skipped, every other dim must have the running expected
stride, which is then multiplied by the size. -/
def isContigRev : List (ℕ × ℕ) → ℕ → Bool
  | [], _ => true
  | p :: rest, expected =>
    if p.1 = 1 then isContigRev rest expected
    else if p.2 = expected then isContigRev rest (expected * p.1) else false

def isContiguous (v : SView) : Bool :=
  isContigRev ((v.sizes.zip v.strides).reverse) 1

/-- A freshly allocated (hence row-major contiguous) tensor. -/
def freshContig (id : ℕ) (sz : List ℕ) : SView :=
  ⟨id, 0, sz, contigStrides sz⟩

/-- `Tensor.contiguous()`: returns `self` when already contiguous, otherwise
copies into a fresh allocation. -/
def contiguousOp (v : SView) (freshId : ℕ) : SView :=
  if isContiguous v then v else freshContig freshId v.sizes

/-- `.view(bsz, q_len, nh, hd)` on a rank-3 slice whose last dimension has
stride `s2`: splits the last dimension into (nh, hd) with strides
(hd*s2, s2); a pure view, same storage. -/
def splitView4 (v : SView) (nh hd : ℕ) : SView :=
  match v.sizes, v.strides with
  | [a, b, _], [s0, s1, s2] => ⟨v.storage, v.offset, [a, b, nh, hd], [s0, s1, hd * s2, s2]⟩
  | _, _ => v

/-- `.transpose(1, 2)` on a rank-4 view: swaps sizes and strides of dims 1, 2. -/
def transpose12v : SView → SView
  | v =>
    match v.sizes, v.strides with
    | [a, b, c, d], [s0, s1, s2, s3] => ⟨v.storage, v.offset, [a, c, b, d], [s0, s2, s1, s3]⟩
    | _, _ => v

/-- Storage history of `value_states` on a cache-enabled call (lines 93, 97,
109, 116): slice `[:, :, 2*hs : 3*hs]` of the fused output (storage 0), view
to (b, t, nh, hd), transpose(1, 2); if a past entry of length `p` is present,
`torch.cat` allocates fresh storage (id 4); finally `.contiguous()` (line
116) copies to fresh storage (id 6) only when the view is not already
stride-contiguous.  The value tensor never passes through the rotary
embedding (spec step 4: the value tensor is never rotated). -/
def valueCachePath (b t nh hd : ℕ) (past : Option ℕ) : SView :=
  let hs := nh * hd
  let vSlice : SView := ⟨0, 2 * hs, [b, t, hs], contigStrides [b, t, 3 * hs]⟩
  let v4 := splitView4 vSlice nh hd
  let vT := transpose12v v4
  let vFull := match past with
    | none => vT
    | some p => freshContig 4 [b, nh, p + t, hd]
  contiguousOp vFull 6

/-- Storage history of `key_states` on a cache-enabled call: same slicing as
the value, but `apply_rotary_pos_emb` (line 103) rebuilds the key by
elementwise multiply-add — modelled from the spec (step 4), producing a fresh
allocation (id 2) — before the optional `torch.cat` (fresh id 3) and
`.contiguous()` (fresh id 5 if needed). -/
def keyCachePath (b t nh hd : ℕ) (past : Option ℕ) : SView :=
  let kRot := freshContig 2 [b, nh, t, hd]
  let kFull := match past with
    | none => kRot
    | some p => freshContig 3 [b, nh, p + t, hd]
  contiguousOp kFull 5

/-! ## Part C: value-level model of `QuantLlamaAttention` (source lines 49-154)

Tensors of fixed rank carry explicit dimension sizes and a total data
function over real numbers (junk outside the valid index box).  The external
collaborators — `QuantLinear.forward` (a matmul over the last dimension),
the rotary provider and `apply_rotary_pos_emb` from `transformers` — are
fields of the module, exactly as the source receives them; the concrete
instantiations used by the theorems are modelled from the spec where noted.
Every shape precondition of a torch bulk op on the forward path is mirrored
as an `Except` error, and the three explicit `ValueError` checks of the
source keep their exact payloads. -/

noncomputable section

/-- Rank-2 tensor (the cos/sin tables). -/
structure T2 where
  n0 : ℕ
  n1 : ℕ
  d : ℕ → ℕ → ℝ

/-- Rank-3 tensor (batch, seq, feature). -/
structure T3 where
  n0 : ℕ
  n1 : ℕ
  n2 : ℕ
  d : ℕ → ℕ → ℕ → ℝ

/-- Rank-4 tensor (batch, heads, seq, head_dim). -/
structure T4 where
  n0 : ℕ
  n1 : ℕ
  n2 : ℕ
  n3 : ℕ
  d : ℕ → ℕ → ℕ → ℕ → ℝ

def T3.shape (t : T3) : List ℕ := [t.n0, t.n1, t.n2]

def T4.shape (t : T4) : List ℕ := [t.n0, t.n1, t.n2, t.n3]

inductive AttnErr
  /-- Python `ZeroDivisionError` from `hidden_size // num_heads` at line 65. -/
  | zeroDivision
  /-- The `ValueError` raised by the divisibility check at lines 68-72. -/
  | configInvalid (hiddenSize numHeads : ℕ)
  /-- A `ValueError` from one of the explicit size checks (lines 122-126,
  129-132, 140-144), carrying the expected and actual shapes exactly as the
  message interpolates them. -/
  | shapeMismatch (expected actual : List ℕ)
  /-- A shape error raised inside a torch bulk op (split/view/cat/matmul). -/
  | torchShape
deriving DecidableEq

/-- The fused attention module: config fields read in `__init__`
(lines 62-66), the minimum finite value of the activation dtype
(`torch.finfo(dtype).min`, line 134), and the four external collaborators. -/
structure QuantLlamaAttention where
  hidden_size : ℕ
  num_heads : ℕ
  head_dim : ℕ
  max_position_embeddings : ℕ
  fmin : ℝ
  qkv_proj : T3 → T3
  o_proj : T3 → T3
  rotary_emb : T4 → ℕ → T2 × T2
  apply_rotary : T4 → T4 → T2 → T2 → (ℕ → ℕ) → T4 × T4

/-- `QuantLlamaAttention.__init__` (lines 54-75): `head_dim` is the Python
floor division `hidden_size // num_heads`, which raises `ZeroDivisionError`
for zero heads; the explicit check then rejects non-exact division. -/
def QuantLlamaAttention.build (hidden_size num_heads max_pos : ℕ) (fmin : ℝ)
    (qkv o : T3 → T3) (rot : T4 → ℕ → T2 × T2)
    (appR : T4 → T4 → T2 → T2 → (ℕ → ℕ) → T4 × T4) :
    Except AttnErr QuantLlamaAttention :=
  if num_heads = 0 then .error .zeroDivision
  else if (hidden_size / num_heads) * num_heads ≠ hidden_size then
    .error (.configInvalid hidden_size num_heads)
  else
    .ok { hidden_size := hidden_size, num_heads := num_heads
          head_dim := hidden_size / num_heads
          max_position_embeddings := max_pos, fmin := fmin
          qkv_proj := qkv, o_proj := o, rotary_emb := rot, apply_rotary := appR }

/-- Width-`width` slice of the last dimension starting at `start`
(one chunk of `torch.split(qkv_states, hidden_size, dim=2)`, line 93). -/
def sliceW (t : T3) (start width : ℕ) : T3 :=
  ⟨t.n0, t.n1, width, fun i j c => t.d i j (start + c)⟩

/-- `.view(bsz, q_len, num_heads, head_dim)` on a (b, q, nh*hd) slice
(lines 95-97): splits the last dimension. -/
def view4 (t : T3) (nh hd : ℕ) : T4 :=
  ⟨t.n0, t.n1, nh, hd, fun i j h l => t.d i j (h * hd + l)⟩

/-- `.transpose(1, 2)` on a rank-4 tensor. -/
def transpose12 (x : T4) : T4 :=
  ⟨x.n0, x.n2, x.n1, x.n3, fun i j k l => x.d i k j l⟩

/-- `.transpose(2, 3)` on a rank-4 tensor (line 120, on the key). -/
def transpose23 (x : T4) : T4 :=
  ⟨x.n0, x.n1, x.n3, x.n2, fun i j k l => x.d i j l k⟩

/-- `torch.cat([x, y], dim=2)` (lines 108-109): the data of `x` first. -/
def cat2 (x y : T4) : T4 :=
  ⟨x.n0, x.n1, x.n2 + y.n2, x.n3,
   fun i j r l => if r < x.n2 then x.d i j r l else y.d i j (r - x.n2) l⟩

/-- `torch.matmul` on rank-4 tensors: batched 2-D product over the last two
dimensions, contracting `x`'s last dimension. -/
def matmul4 (x y : T4) : T4 :=
  ⟨x.n0, x.n1, x.n2, y.n3,
   fun i j p q => ∑ r ∈ Finset.range x.n3, x.d i j p r * y.d i j r q⟩

/-- Elementwise division by a scalar (`/ math.sqrt(self.head_dim)`, line 120). -/
def divScalar (x : T4) (c : ℝ) : T4 :=
  ⟨x.n0, x.n1, x.n2, x.n3, fun i j p r => x.d i j p r / c⟩

/-- `attn_weights + attention_mask` (line 133): the mask's head dimension has
size 1 (validated just above) and broadcasts over the heads. -/
def addMask (w m : T4) : T4 :=
  ⟨w.n0, w.n1, w.n2, w.n3, fun i j p r => w.d i j p r + m.d i 0 p r⟩

/-- `torch.max(attn_weights, torch.tensor(fmin))` (line 134): elementwise
lower clamp. -/
def clampMin (w : T4) (c : ℝ) : T4 :=
  ⟨w.n0, w.n1, w.n2, w.n3, fun i j p r => max (w.d i j p r) c⟩

/-- `nn.functional.softmax(·, dim=-1)` (line 137); over ℝ the fp32 upcast
and cast back are identities. -/
def softmaxLast (w : T4) : T4 :=
  ⟨w.n0, w.n1, w.n2, w.n3,
   fun i j p r => Real.exp (w.d i j p r) / ∑ e ∈ Finset.range w.n3, Real.exp (w.d i j p e)⟩

/-- `attn_output.transpose(1, 2).reshape(bsz, q_len, hidden_size)`
(lines 146-147), applied to the already-transposed (b, q, nh, hd) tensor. -/
def mergeHeads (x : T4) : T3 :=
  ⟨x.n0, x.n1, x.n2 * x.n3, fun i p c => x.d i p (c / x.n3) (c % x.n3)⟩

def pastLen : Option (T4 × T4) → ℕ
  | none => 0
  | some p => p.1.n2

/-- `kv_seq_len` (lines 99-101): the new keys' sequence length (`q_len` after
the view) plus the cached length, 0 when no past entry is given. -/
def kvSeqLen (hidden : T3) (past : Option (T4 × T4)) : ℕ :=
  hidden.n1 + pastLen past

def qkvStates (M : QuantLlamaAttention) (hidden : T3) : T3 :=
  M.qkv_proj hidden

/-- Query slice, shaped to (b, nh, q, hd) (lines 93, 95). -/
def query4 (M : QuantLlamaAttention) (hidden : T3) : T4 :=
  transpose12 (view4 (sliceW (qkvStates M hidden) 0 M.hidden_size) M.num_heads M.head_dim)

/-- Key slice, shaped to (b, nh, q, hd) (lines 93, 96). -/
def key4 (M : QuantLlamaAttention) (hidden : T3) : T4 :=
  transpose12 (view4 (sliceW (qkvStates M hidden) M.hidden_size M.hidden_size) M.num_heads M.head_dim)

/-- Value slice, shaped to (b, nh, q, hd) (lines 93, 97). -/
def value4 (M : QuantLlamaAttention) (hidden : T3) : T4 :=
  transpose12 (view4 (sliceW (qkvStates M hidden) (2 * M.hidden_size) M.hidden_size) M.num_heads M.head_dim)

/-- Lines 102-103: obtain cos/sin tables for `kv_seq_len` from the rotary
provider (passed the value tensor for dtype/device only) and apply the
rotary embedding to query and key. -/
def rotPair (M : QuantLlamaAttention) (hidden : T3) (posIds : ℕ → ℕ)
    (past : Option (T4 × T4)) : T4 × T4 :=
  let cs := M.rotary_emb (value4 M hidden) (kvSeqLen hidden past)
  M.apply_rotary (query4 M hidden) (key4 M hidden) cs.1 cs.2 posIds

/-- The key used for scoring and caching (lines 106-108): cached keys
concatenated before the new ones along the sequence axis. -/
def keyFull (M : QuantLlamaAttention) (hidden : T3) (posIds : ℕ → ℕ)
    (past : Option (T4 × T4)) : T4 :=
  match past with
  | none => (rotPair M hidden posIds past).2
  | some p => cat2 p.1 (rotPair M hidden posIds past).2

/-- The value used for scoring and caching (lines 106-107, 109). -/
def valueFull (M : QuantLlamaAttention) (hidden : T3) (past : Option (T4 × T4)) : T4 :=
  match past with
  | none => value4 M hidden
  | some p => cat2 p.2 (value4 M hidden)

/-- Raw attention scores (line 120):
`matmul(query, key.transpose(2, 3)) / sqrt(head_dim)`. -/
def rawScores (M : QuantLlamaAttention) (hidden : T3) (posIds : ℕ → ℕ)
    (past : Option (T4 × T4)) : T4 :=
  divScalar (matmul4 (rotPair M hidden posIds past).1 (transpose23 (keyFull M hidden posIds past)))
    (Real.sqrt (M.head_dim : ℝ))

/-- The tensor fed to softmax: raw scores, with mask addition and clamp
applied only when a mask is given (lines 128-134). -/
def preSoftmax (M : QuantLlamaAttention) (hidden : T3) (attention_mask : Option T4)
    (posIds : ℕ → ℕ) (past : Option (T4 × T4)) : T4 :=
  match attention_mask with
  | none => rawScores M hidden posIds past
  | some m => clampMin (addMask (rawScores M hidden posIds past) m) M.fmin

/-- The softmax-normalized attention weights (line 137). -/
def attnWeights (M : QuantLlamaAttention) (hidden : T3) (attention_mask : Option T4)
    (posIds : ℕ → ℕ) (past : Option (T4 × T4)) : T4 :=
  softmaxLast (preSoftmax M hidden attention_mask posIds past)

/-- `attn_output = matmul(attn_weights, value_states)` (line 138). -/
def attnOut4 (M : QuantLlamaAttention) (hidden : T3) (attention_mask : Option T4)
    (posIds : ℕ → ℕ) (past : Option (T4 × T4)) : T4 :=
  matmul4 (attnWeights M hidden attention_mask posIds past) (valueFull M hidden past)

/-- The final per-call output (lines 146-149): transpose back, merge heads,
apply the output projection. -/
def attnFinal (M : QuantLlamaAttention) (hidden : T3) (attention_mask : Option T4)
    (posIds : ℕ → ℕ) (past : Option (T4 × T4)) : T3 :=
  M.o_proj (mergeHeads (transpose12 (attnOut4 M hidden attention_mask posIds past)))

/-- Shape preconditions of the split and views (lines 93-97): the fused
output must be (bsz, q_len, 3*hidden_size) for the three-way unpack, and the
per-chunk view requires hidden_size = num_heads * head_dim elements. -/
def viewOkB (M : QuantLlamaAttention) (hidden : T3) : Bool :=
  ((qkvStates M hidden).n0 == hidden.n0) && ((qkvStates M hidden).n1 == hidden.n1) &&
  ((qkvStates M hidden).n2 == 3 * M.hidden_size) && (M.num_heads * M.head_dim == M.hidden_size)

/-- Shape preconditions of `torch.cat(dim=2)` (lines 108-109): all dims other
than the concatenated one must agree with the cached tensors. -/
def catOkB : Option (T4 × T4) → T4 → T4 → Bool
  | none, _, _ => true
  | some p, k2, v2 =>
    (p.1.n0 == k2.n0) && (p.1.n1 == k2.n1) && (p.1.n3 == k2.n3) &&
    (p.2.n0 == v2.n0) && (p.2.n1 == v2.n1) && (p.2.n3 == v2.n3)

/-- Shape preconditions of `torch.matmul(query, keyT)` (line 120). -/
def qkOkB (q2 kT : T4) : Bool :=
  (q2.n0 == kT.n0) && (q2.n1 == kT.n1) && (q2.n3 == kT.n2)

/-- Shape preconditions of `torch.matmul(attn_weights, value_states)`
(line 138). -/
def wvOkB (w v : T4) : Bool :=
  (w.n0 == v.n0) && (w.n1 == v.n1) && (w.n3 == v.n2)

/-- Lines 122-126: the size check on the raw attention weights.  The check
compares against the 4-D shape, but the message interpolates the 3-tuple
`(bsz * self.num_heads, q_len, kv_seq_len)` as the expected size. -/
def weightsSizeCheck (aw : T4) (bsz nh qLen kv : ℕ) : Except AttnErr Unit :=
  if aw.shape ≠ [bsz, nh, qLen, kv] then
    .error (.shapeMismatch [bsz * nh, qLen, kv] aw.shape)
  else .ok ()

/-- Lines 129-132: the size check on the attention mask; expected and actual
shapes are reported as 4-tuples. -/
def maskSizeCheck (m : T4) (bsz qLen kv : ℕ) : Except AttnErr Unit :=
  if m.shape ≠ [bsz, 1, qLen, kv] then
    .error (.shapeMismatch [bsz, 1, qLen, kv] m.shape)
  else .ok ()

/-- Lines 140-144: the size check on the attention output; expected and
actual shapes are reported as 4-tuples. -/
def outputSizeCheck (out : T4) (bsz nh qLen hd : ℕ) : Except AttnErr Unit :=
  if out.shape ≠ [bsz, nh, qLen, hd] then
    .error (.shapeMismatch [bsz, nh, qLen, hd] out.shape)
  else .ok ()

/-- The tail of the forward pass after the mask branch (lines 137-154).
The `.contiguous()` calls of lines 114-116 are identities at the value
level; their storage effect is settled by the Part B model. -/
def forwardTail (M : QuantLlamaAttention) (hidden : T3) (attention_mask : Option T4)
    (posIds : ℕ → ℕ) (past : Option (T4 × T4)) (output_attentions use_cache : Bool) :
    Except AttnErr (T3 × Option T4 × Option (T4 × T4)) :=
  if wvOkB (attnWeights M hidden attention_mask posIds past) (valueFull M hidden past) then
    match outputSizeCheck (attnOut4 M hidden attention_mask posIds past)
        hidden.n0 M.num_heads hidden.n1 M.head_dim with
    | .error e => .error e
    | .ok _ =>
      .ok (attnFinal M hidden attention_mask posIds past,
           if output_attentions then some (attnWeights M hidden attention_mask posIds past) else none,
           if use_cache then some (keyFull M hidden posIds past, valueFull M hidden past) else none)
  else .error .torchShape

/-- `QuantLlamaAttention.forward` (lines 80-154). -/
def QuantLlamaAttention.forward (M : QuantLlamaAttention) (hidden : T3)
    (attention_mask : Option T4) (posIds : ℕ → ℕ)
    (past_key_value : Option (T4 × T4)) (output_attentions use_cache : Bool) :
    Except AttnErr (T3 × Option T4 × Option (T4 × T4)) :=
  if viewOkB M hidden then
    if catOkB past_key_value (rotPair M hidden posIds past_key_value).2 (value4 M hidden) then
      if qkOkB (rotPair M hidden posIds past_key_value).1
          (transpose23 (keyFull M hidden posIds past_key_value)) then
        match weightsSizeCheck (rawScores M hidden posIds past_key_value)
            hidden.n0 M.num_heads hidden.n1 (kvSeqLen hidden past_key_value) with
        | .error e => .error e
        | .ok _ =>
          match attention_mask with
          | some m =>
            match maskSizeCheck m hidden.n0 hidden.n1 (kvSeqLen hidden past_key_value) with
            | .error e => .error e
            | .ok _ => forwardTail M hidden (some m) posIds past_key_value output_attentions use_cache
          | none => forwardTail M hidden none posIds past_key_value output_attentions use_cache
      else .error .torchShape
    else .error .torchShape
  else .error .torchShape

/-! ### Concrete collaborators for the refinement theorems

`QuantLinear.forward` lives in `gptq/quant/quant_linear.py` (not among the
sources) and `apply_rotary_pos_emb` in `transformers`; both are modelled
from the spec. -/

/-- Modelled from the spec: `QuantizedLinear` "given ... an input tensor,
returns the dequantized matrix product" — a map applied independently to
every (batch, seq) row of the last dimension, producing `w` output
features. -/
def rowwiseMap (w : ℕ) (F : (ℕ → ℝ) → ℕ → ℝ) (t : T3) : T3 :=
  ⟨t.n0, t.n1, w, fun i j c => F (fun x => t.d i j x) c⟩

/-- Modelled from the spec: the rotate-half convention (spec step 4) as in
`transformers`: `rotate_half(x) = cat((-x2, x1), dim=-1)` with
`x1 = x[..., : hd//2]`, `x2 = x[..., hd//2 :]`; this is the value of
entry `l` of the rotated last dimension. -/
def rotate_half (x : T4) (i j p l : ℕ) : ℝ :=
  if l < x.n3 - x.n3 / 2 then -(x.d i j p (l + x.n3 / 2))
  else x.d i j p (l - (x.n3 - x.n3 / 2))

/-- Modelled from the spec: `apply_rotary_pos_emb(q, k, cos, sin,
position_ids)` gathers the cos/sin rows at `position_ids` and forms
`x * cos + rotate_half(x) * sin` for query and key. -/
def apply_rotary_pos_emb (q k : T4) (cos sin : T2) (posIds : ℕ → ℕ) : T4 × T4 :=
  (⟨q.n0, q.n1, q.n2, q.n3,
     fun i j p l => q.d i j p l * cos.d (posIds p) l + rotate_half q i j p l * sin.d (posIds p) l⟩,
   ⟨k.n0, k.n1, k.n2, k.n3,
     fun i j p l => k.d i j p l * cos.d (posIds p) l + rotate_half k i j p l * sin.d (posIds p) l⟩)

/-- Modelled from the spec: the RotaryProvider capability — "given a
reference tensor (for dtype/device) and a target total sequence length,
returns cos/sin tables of matching length"; the table row for absolute
position `p` does not depend on the requested length. -/
def specRotaryEmb (cF sF : ℕ → ℕ → ℝ) (hd : ℕ) : T4 → ℕ → T2 × T2 :=
  fun _ len => (⟨len, hd, fun p l => cF p l⟩, ⟨len, hd, fun p l => sF p l⟩)

/-- A fused attention module over `nh` heads of dimension `hd`, wired to the
spec-modelled collaborators. -/
def mkModule (nh hd : ℕ) (fmin : ℝ) (F G : (ℕ → ℝ) → ℕ → ℝ)
    (cF sF : ℕ → ℕ → ℝ) : QuantLlamaAttention :=
  { hidden_size := nh * hd, num_heads := nh, head_dim := hd
    max_position_embeddings := 2048, fmin := fmin
    qkv_proj := rowwiseMap (3 * (nh * hd)) F
    o_proj := rowwiseMap (nh * hd) G
    rotary_emb := specRotaryEmb cF sF hd
    apply_rotary := apply_rotary_pos_emb }

/-- A one-token hidden-state tensor holding row `row` of the two-token
input `H`. -/
def hidRow (b hh : ℕ) (H : ℕ → ℕ → ℕ → ℝ) (row : ℕ) : T3 :=
  ⟨b, 1, hh, fun i _ c => H i row c⟩

/-- The two-token hidden-state tensor of input `H`. -/
def hidPair (b hh : ℕ) (H : ℕ → ℕ → ℕ → ℝ) : T3 :=
  ⟨b, 2, hh, fun i p c => H i p c⟩

/-- The additive causal mask for a two-token prompt: 0 on and below the
diagonal, `mval` (a large negative number) above it. -/
def causalMask (b : ℕ) (mval : ℝ) : T4 :=
  ⟨b, 1, 2, 2, fun _ _ p r => if r ≤ p then 0 else mval⟩

end

/-! ## Part D: concrete instances used by counterexamples and witnesses -/

/-- A projection with bits=2, groupsize=64, infeatures=64 and the blob dim-0
sizes the GPTQ packing gives them (qweight: infeatures*bits/32 = 4 rows;
qzeros/scales: infeatures/groupsize = 1 row). -/
def qProjX : QuantLinear :=
  { bits := 2, groupsize := 64, infeatures := 64, outfeatures := 16
    qweight := ⟨[[1], [2], [3], [4]]⟩
    qzeros := ⟨[[0]]⟩
    scales := ⟨[[1]]⟩
    bias := none }

/-- A projection with bits=4, groupsize=32, infeatures=32: every scalar
parameter differs from `qProjX`, yet the blob dim-0 sizes coincide
(32*4/32 = 4 rows; 32/32 = 1 row). -/
def kProjX : QuantLinear :=
  { bits := 4, groupsize := 32, infeatures := 32, outfeatures := 16
    qweight := ⟨[[5], [6], [7], [8]]⟩
    qzeros := ⟨[[9]]⟩
    scales := ⟨[[2]]⟩
    bias := none }

def vProjX : QuantLinear :=
  { bits := 4, groupsize := 32, infeatures := 32, outfeatures := 16
    qweight := ⟨[[10], [11], [12], [13]]⟩
    qzeros := ⟨[[14]]⟩
    scales := ⟨[[3]]⟩
    bias := none }

/-- An attention node whose q and k/v projections disagree on bit-width,
group size and input-feature count, while all blob dim-0 sizes agree. -/
def mismatchAttn : LlamaAttention := ⟨qProjX, kProjX, vProjX⟩

/-- An attention node whose three projections agree on all parameters. -/
def matchedAttn : LlamaAttention := ⟨kProjX, vProjX, vProjX⟩

/-- A projection whose qweight has a different dim-0 size, so that
`torch.cat(dim=1)` itself fails. -/
def shortProj : QuantLinear :=
  { bits := 4, groupsize := 32, infeatures := 32, outfeatures := 16
    qweight := ⟨[[5], [6]]⟩
    qzeros := ⟨[[9]]⟩
    scales := ⟨[[2]]⟩
    bias := none }

def badShapeAttn : LlamaAttention := ⟨kProjX, shortProj, vProjX⟩

noncomputable section

def F0 : (ℕ → ℝ) → ℕ → ℝ := fun _ _ => 0

def cF0 : ℕ → ℕ → ℝ := fun _ _ => 0

def cF1 : ℕ → ℕ → ℝ := fun _ _ => 1

def H0 : ℕ → ℕ → ℕ → ℝ := fun _ _ _ => 0

/-- Row map sending a hidden row `g` to (q, k, v) = (0, 0, g 0): queries and
keys are zero, the value equals the token's hidden feature. -/
def FX : (ℕ → ℝ) → ℕ → ℝ := fun g c => if c = 2 then g 0 else 0

/-- Output projection: the identity on feature 0. -/
def GX : (ℕ → ℝ) → ℕ → ℝ := fun g _ => g 0

/-- Two-token input: token 0 is the zero vector, token 1 is all-ones. -/
def HX : ℕ → ℕ → ℕ → ℝ := fun _ p _ => if p = 0 then 0 else 1

/-- One head of dimension one, fmin = -1, identity rotary (cos 1, sin 0). -/
def MX : QuantLlamaAttention := mkModule 1 1 (-1) FX GX cF1 cF0

/-- The all-zero one-head module with fmin = 0. -/
def M0 : QuantLlamaAttention := mkModule 1 1 0 F0 F0 cF0 cF0

/-- A module whose (external) `apply_rotary_pos_emb` collaborator returns a
query of sequence length 2 for a one-token call, so that the raw
attention-weights shape deviates from its contract. -/
def Mc6 : QuantLlamaAttention :=
  { mkModule 1 1 0 F0 F0 cF0 cF0 with
    apply_rotary := fun _ k _ _ _ => (⟨1, 1, 2, 1, fun _ _ _ _ => 0⟩, k) }

/-- A mask tensor of entirely wrong shape. -/
def badMask : T4 := ⟨5, 5, 5, 5, fun _ _ _ _ => 0⟩

/-- A length-1 (b=1, nh=1, hd=1) cached tensor of zeros. -/
def pastK1 : T4 := ⟨1, 1, 1, 1, fun _ _ _ _ => 0⟩

end

/-! ## Theorems -/

/-- `torch.cat([a,b,c], dim=1)` succeeds exactly when the dim-0 sizes agree. -/
theorem Mat.cat3_ok (a b c : Mat) (h1 : a.rows.length = b.rows.length)
    (h2 : a.rows.length = c.rows.length) :
    Mat.cat3 a b c = .ok (catCols3 a b c) := by
  unfold Mat.cat3
  rw [if_pos ⟨h1, h2⟩]

/-- Under agreeing blob dim-0 sizes, the fusion of one node succeeds and
yields exactly `fusedQKV`. -/
theorem fuseQKV_ok (m : LlamaAttention)
    (hw1 : m.q_proj.qweight.rows.length = m.k_proj.qweight.rows.length)
    (hw2 : m.q_proj.qweight.rows.length = m.v_proj.qweight.rows.length)
    (hz1 : m.q_proj.qzeros.rows.length = m.k_proj.qzeros.rows.length)
    (hz2 : m.q_proj.qzeros.rows.length = m.v_proj.qzeros.rows.length)
    (hs1 : m.q_proj.scales.rows.length = m.k_proj.scales.rows.length)
    (hs2 : m.q_proj.scales.rows.length = m.v_proj.scales.rows.length) :
    fuseQKV m = .ok (fusedQKV m) := by
  unfold fuseQKV
  rw [Mat.cat3_ok _ _ _ hw1 hw2, Mat.cat3_ok _ _ _ hz1 hz2, Mat.cat3_ok _ _ _ hs1 hs2]
  rfl

/-- When every torch shape precondition and every explicit size check of the
forward pass holds, the call succeeds and returns the pipeline's results,
with the optional components governed by the two flags. -/
theorem forward_of_checks (M : QuantLlamaAttention) (hidden : T3) (mask : Option T4)
    (posIds : ℕ → ℕ) (past : Option (T4 × T4)) (oa uc : Bool)
    (h1 : viewOkB M hidden = true)
    (h2 : catOkB past (rotPair M hidden posIds past).2 (value4 M hidden) = true)
    (h3 : qkOkB (rotPair M hidden posIds past).1
      (transpose23 (keyFull M hidden posIds past)) = true)
    (h4 : (rawScores M hidden posIds past).shape =
      [hidden.n0, M.num_heads, hidden.n1, kvSeqLen hidden past])
    (h5 : ∀ m, mask = some m → m.shape = [hidden.n0, 1, hidden.n1, kvSeqLen hidden past])
    (h6 : wvOkB (attnWeights M hidden mask posIds past) (valueFull M hidden past) = true)
    (h7 : (attnOut4 M hidden mask posIds past).shape =
      [hidden.n0, M.num_heads, hidden.n1, M.head_dim]) :
    M.forward hidden mask posIds past oa uc =
      .ok (attnFinal M hidden mask posIds past,
           if oa then some (attnWeights M hidden mask posIds past) else none,
           if uc then some (keyFull M hidden posIds past, valueFull M hidden past) else none) := by
  cases mask with
  | none =>
    simp [QuantLlamaAttention.forward, h1, h2, h3, weightsSizeCheck, h4,
      forwardTail, h6, outputSizeCheck, h7]
  | some m =>
    have hm := h5 m rfl
    simp [QuantLlamaAttention.forward, h1, h2, h3, weightsSizeCheck, h4,
      maskSizeCheck, hm, forwardTail, h6, outputSizeCheck, h7]

/-- C1 (counterexample): on a node whose q/k/v projections disagree on
bit-width, group size and input-feature count — but whose packed blobs
happen to have agreeing dim-0 sizes — `make_quant_attn` raises no error at
all: it silently fuses the node using the query projection's parameters and
modifies the tree.  This refutes the claim that such a mismatch raises a
`FusionMismatch` and leaves the module tree unmodified. -/
theorem make_quant_attn_silent_mismatch_fusion :
    make_quant_attn [NNModule.llama mismatchAttn] =
      ([NNModule.quantAttn (fusedQKV mismatchAttn)], none) ∧
    mismatchAttn.q_proj.bits ≠ mismatchAttn.k_proj.bits ∧
    mismatchAttn.q_proj.groupsize ≠ mismatchAttn.k_proj.groupsize ∧
    mismatchAttn.q_proj.infeatures ≠ mismatchAttn.k_proj.infeatures ∧
    (fusedQKV mismatchAttn).bits = 2 ∧ (fusedQKV mismatchAttn).bits ≠ kProjX.bits := by
  decide

/-- C1 (amended): the fusion builder performs no validation of bit-width,
group size or input-feature count.  A node fuses successfully whenever the
blob dim-0 sizes agree — the fused layer simply copies the query
projection's parameters — and when blob dim-0 sizes disagree the failure is
the `torch.cat` shape error, with every node processed before the failing
one left replaced in the tree (partial fusion). -/
theorem make_quant_attn_no_mismatch_check (m1 m2 : LlamaAttention)
    (hw1 : m1.q_proj.qweight.rows.length = m1.k_proj.qweight.rows.length)
    (hw2 : m1.q_proj.qweight.rows.length = m1.v_proj.qweight.rows.length)
    (hz1 : m1.q_proj.qzeros.rows.length = m1.k_proj.qzeros.rows.length)
    (hz2 : m1.q_proj.qzeros.rows.length = m1.v_proj.qzeros.rows.length)
    (hs1 : m1.q_proj.scales.rows.length = m1.k_proj.scales.rows.length)
    (hs2 : m1.q_proj.scales.rows.length = m1.v_proj.scales.rows.length)
    (hbad : ¬ (m2.q_proj.qweight.rows.length = m2.k_proj.qweight.rows.length ∧
               m2.q_proj.qweight.rows.length = m2.v_proj.qweight.rows.length)) :
    fuseQKV m1 = .ok (fusedQKV m1) ∧
    (fusedQKV m1).bits = m1.q_proj.bits ∧
    (fusedQKV m1).groupsize = m1.q_proj.groupsize ∧
    (fusedQKV m1).infeatures = m1.q_proj.infeatures ∧
    fuseQKV m2 = .error .catShape ∧
    make_quant_attn [NNModule.llama m1, NNModule.llama m2] =
      ([NNModule.quantAttn (fusedQKV m1), NNModule.llama m2], some .catShape) := by
  have hok : fuseQKV m1 = .ok (fusedQKV m1) := fuseQKV_ok m1 hw1 hw2 hz1 hz2 hs1 hs2
  have herr : fuseQKV m2 = .error .catShape := by
    unfold fuseQKV
    unfold Mat.cat3
    rw [if_neg hbad]
    rfl
  refine ⟨hok, rfl, rfl, rfl, herr, ?_⟩
  unfold make_quant_attn
  rw [hok]
  unfold make_quant_attn
  rw [herr]

theorem make_quant_attn_no_mismatch_check_witness :
    fuseQKV matchedAttn = .ok (fusedQKV matchedAttn) ∧
    (fusedQKV matchedAttn).bits = matchedAttn.q_proj.bits ∧
    (fusedQKV matchedAttn).groupsize = matchedAttn.q_proj.groupsize ∧
    (fusedQKV matchedAttn).infeatures = matchedAttn.q_proj.infeatures ∧
    fuseQKV badShapeAttn = .error .catShape ∧
    make_quant_attn [NNModule.llama matchedAttn, NNModule.llama badShapeAttn] =
      ([NNModule.quantAttn (fusedQKV matchedAttn), NNModule.llama badShapeAttn],
       some .catShape) :=
  make_quant_attn_no_mismatch_check matchedAttn badShapeAttn
    (by decide) (by decide) (by decide) (by decide) (by decide) (by decide) (by decide)

/-- C2: for three projections sharing bit-width, group size and input-feature
count (with blob dim-0 sizes agreeing, as the packing makes them), the fused
projection's output-feature count is the sum of the three sources', its
packed weight, zero-point and scale blobs are the dim-1 (output-feature
axis) concatenations in the fixed order query, key, value, and it carries no
bias. -/
theorem fuseQKV_concatenates (m : LlamaAttention)
    (hb1 : m.q_proj.bits = m.k_proj.bits) (hb2 : m.q_proj.bits = m.v_proj.bits)
    (hg1 : m.q_proj.groupsize = m.k_proj.groupsize)
    (hg2 : m.q_proj.groupsize = m.v_proj.groupsize)
    (hi1 : m.q_proj.infeatures = m.k_proj.infeatures)
    (hi2 : m.q_proj.infeatures = m.v_proj.infeatures)
    (hw1 : m.q_proj.qweight.rows.length = m.k_proj.qweight.rows.length)
    (hw2 : m.q_proj.qweight.rows.length = m.v_proj.qweight.rows.length)
    (hz1 : m.q_proj.qzeros.rows.length = m.k_proj.qzeros.rows.length)
    (hz2 : m.q_proj.qzeros.rows.length = m.v_proj.qzeros.rows.length)
    (hs1 : m.q_proj.scales.rows.length = m.k_proj.scales.rows.length)
    (hs2 : m.q_proj.scales.rows.length = m.v_proj.scales.rows.length) :
    fuseQKV m = .ok (fusedQKV m) ∧
    (fusedQKV m).outfeatures =
      m.q_proj.outfeatures + m.k_proj.outfeatures + m.v_proj.outfeatures ∧
    (fusedQKV m).qweight = catCols3 m.q_proj.qweight m.k_proj.qweight m.v_proj.qweight ∧
    (fusedQKV m).qzeros = catCols3 m.q_proj.qzeros m.k_proj.qzeros m.v_proj.qzeros ∧
    (fusedQKV m).scales = catCols3 m.q_proj.scales m.k_proj.scales m.v_proj.scales ∧
    (fusedQKV m).bias = none :=
  ⟨fuseQKV_ok m hw1 hw2 hz1 hz2 hs1 hs2, rfl, rfl, rfl, rfl, rfl⟩

theorem fuseQKV_concatenates_witness :
    fuseQKV matchedAttn = .ok (fusedQKV matchedAttn) ∧
    (fusedQKV matchedAttn).outfeatures = 48 ∧
    (fusedQKV matchedAttn).qweight =
      ⟨[[5, 10, 10], [6, 11, 11], [7, 12, 12], [8, 13, 13]]⟩ ∧
    (fusedQKV matchedAttn).bias = none := by
  have h := fuseQKV_concatenates matchedAttn (by decide) (by decide) (by decide)
    (by decide) (by decide) (by decide) (by decide) (by decide) (by decide)
    (by decide) (by decide) (by decide)
  exact ⟨h.1, by decide, by decide, h.2.2.2.2.2⟩

/-- C4: on a cache-enabled call with batch 1, one new token and no past
entry, the value slice's transposed view is stride-contiguous, so
`.contiguous()` (line 116) returns the view itself and the cached value
tensor still reads the fused projection's output buffer (storage 0) — the
ownership claim fails exactly on the hot single-token decode shape.  The
cached key is rebuilt by the rotary embedding and is independent, as are the
value caches for longer prompts, larger batches, or calls with a past
entry. -/
theorem cached_value_aliases_qkv_buffer :
    (valueCachePath 1 1 2 4 none).storage = 0 ∧
    (valueCachePath 1 1 2 4 none).offset = 2 * (2 * 4) ∧
    (keyCachePath 1 1 2 4 none).storage ≠ 0 ∧
    (valueCachePath 1 2 2 4 none).storage ≠ 0 ∧
    (valueCachePath 2 1 2 4 none).storage ≠ 0 ∧
    (valueCachePath 1 1 2 4 (some 3)).storage ≠ 0 := by
  decide

/-- C8 (counterexample): a config with hidden_size 100 and head count 0 is
not evenly divisible, yet construction fails with the Python
`ZeroDivisionError` from `hidden_size // num_heads` (line 65), not with the
`ConfigInvalid` `ValueError` of lines 68-72. -/
theorem build_zero_heads_zero_division :
    QuantLlamaAttention.build 100 0 2048 0 (rowwiseMap 300 F0) (rowwiseMap 100 F0)
      (specRotaryEmb cF0 cF0 1) apply_rotary_pos_emb = .error .zeroDivision ∧
    ¬ (0 ∣ 100) ∧
    QuantLlamaAttention.build 100 0 2048 0 (rowwiseMap 300 F0) (rowwiseMap 100 F0)
      (specRotaryEmb cF0 cF0 1) apply_rotary_pos_emb ≠
      .error (.configInvalid 100 0) := by
  refine ⟨rfl, by decide, ?_⟩
  intro h
  rw [QuantLlamaAttention.build] at h
  simp at h

/-- C8 (amended): for every positive head count that does not evenly divide
hidden_size, construction fails at build time with `ConfigInvalid`; for head
count 0 construction still fails at build time, but with a division-by-zero
error instead. -/
theorem build_configInvalid_pos_heads (hs nh mp : ℕ) (fm : ℝ)
    (qf og : T3 → T3) (rf : T4 → ℕ → T2 × T2)
    (af : T4 → T4 → T2 → T2 → (ℕ → ℕ) → T4 × T4)
    (hpos : 0 < nh) (hndvd : ¬ nh ∣ hs) :
    QuantLlamaAttention.build hs nh mp fm qf og rf af =
      .error (.configInvalid hs nh) := by
  have h0 : ¬ nh = 0 := Nat.pos_iff_ne_zero.mp hpos
  have h2 : (hs / nh) * nh ≠ hs := by
    intro heq
    exact hndvd ⟨hs / nh, by rw [Nat.mul_comm]; exact heq.symm⟩
  unfold QuantLlamaAttention.build
  rw [if_neg h0, if_pos h2]

theorem build_configInvalid_pos_heads_witness :
    QuantLlamaAttention.build 100 7 2048 0 (rowwiseMap 300 F0) (rowwiseMap 100 F0)
      (specRotaryEmb cF0 cF0 1) apply_rotary_pos_emb =
      .error (.configInvalid 100 7) :=
  build_configInvalid_pos_heads 100 7 2048 0 (rowwiseMap 300 F0) (rowwiseMap 100 F0)
    (specRotaryEmb cF0 cF0 1) apply_rotary_pos_emb (by norm_num) (by decide)

/-! ### Cache-equivalence development (C3)

Two cache-enabled decode calls (token 0 then token 1) against one two-token
causal call on the same module; congruence lemmas relate the pipelines
pointwise at the shared key positions. -/

/-- The raw scores of the second decode call at its single query row equal
the single causal call's raw scores at row 1, for both key positions. -/
theorem c3_scores (b nh hd : ℕ) (fmin : ℝ) (F G : (ℕ → ℝ) → ℕ → ℝ)
    (cF sF : ℕ → ℕ → ℝ) (H : ℕ → ℕ → ℕ → ℝ) (i h r : ℕ) (hr : r < 2) :
    (rawScores (mkModule nh hd fmin F G cF sF) (hidRow b (nh * hd) H 1) (fun _ => 1)
      (some (keyFull (mkModule nh hd fmin F G cF sF) (hidRow b (nh * hd) H 0) (fun _ => 0) none,
             valueFull (mkModule nh hd fmin F G cF sF) (hidRow b (nh * hd) H 0) none))).d i h 0 r =
    (rawScores (mkModule nh hd fmin F G cF sF) (hidPair b (nh * hd) H) (fun p => p) none).d i h 1 r := by
  interval_cases r
  · rfl
  · rfl

/-- On row 1 the causal mask adds 0 everywhere, and as long as the raw
scores stay above fmin the clamp is the identity: the single call's
pre-softmax row 1 equals its raw scores row 1. -/
theorem c3_presoftmax (b nh hd : ℕ) (fmin mval : ℝ) (F G : (ℕ → ℝ) → ℕ → ℝ)
    (cF sF : ℕ → ℕ → ℝ) (H : ℕ → ℕ → ℕ → ℝ)
    (hfm : ∀ i j r, r < 2 →
      fmin ≤ (rawScores (mkModule nh hd fmin F G cF sF) (hidPair b (nh * hd) H) (fun p => p) none).d i j 1 r)
    (i h r : ℕ) (hr : r < 2) :
    (preSoftmax (mkModule nh hd fmin F G cF sF) (hidPair b (nh * hd) H)
      (some (causalMask b mval)) (fun p => p) none).d i h 1 r =
    (rawScores (mkModule nh hd fmin F G cF sF) (hidPair b (nh * hd) H) (fun p => p) none).d i h 1 r := by
  have hle : r ≤ 1 := by omega
  show max ((rawScores _ _ _ _).d i h 1 r + (causalMask b mval).d i 0 1 r) fmin = _
  have hm : (causalMask b mval).d i 0 1 r = 0 := by
    simp [causalMask, hle]
  rw [hm, add_zero]
  exact max_eq_left (hfm i h r hr)

/-- Softmax weights agree between the second decode call's row and the
single call's row 1. -/
theorem c3_weights (b nh hd : ℕ) (fmin mval : ℝ) (F G : (ℕ → ℝ) → ℕ → ℝ)
    (cF sF : ℕ → ℕ → ℝ) (H : ℕ → ℕ → ℕ → ℝ)
    (hfm : ∀ i j r, r < 2 →
      fmin ≤ (rawScores (mkModule nh hd fmin F G cF sF) (hidPair b (nh * hd) H) (fun p => p) none).d i j 1 r)
    (i h r : ℕ) (hr : r < 2) :
    (attnWeights (mkModule nh hd fmin F G cF sF) (hidRow b (nh * hd) H 1) none (fun _ => 1)
      (some (keyFull (mkModule nh hd fmin F G cF sF) (hidRow b (nh * hd) H 0) (fun _ => 0) none,
             valueFull (mkModule nh hd fmin F G cF sF) (hidRow b (nh * hd) H 0) none))).d i h 0 r =
    (attnWeights (mkModule nh hd fmin F G cF sF) (hidPair b (nh * hd) H)
      (some (causalMask b mval)) (fun p => p) none).d i h 1 r := by
  have key : ∀ s, s < 2 →
      (preSoftmax (mkModule nh hd fmin F G cF sF) (hidRow b (nh * hd) H 1) none (fun _ => 1)
        (some (keyFull (mkModule nh hd fmin F G cF sF) (hidRow b (nh * hd) H 0) (fun _ => 0) none,
               valueFull (mkModule nh hd fmin F G cF sF) (hidRow b (nh * hd) H 0) none))).d i h 0 s =
      (preSoftmax (mkModule nh hd fmin F G cF sF) (hidPair b (nh * hd) H)
        (some (causalMask b mval)) (fun p => p) none).d i h 1 s := by
    intro s hs
    exact (c3_scores b nh hd fmin F G cF sF H i h s hs).trans
      (c3_presoftmax b nh hd fmin mval F G cF sF H hfm i h s hs).symm
  show Real.exp _ / _ = Real.exp _ / _
  rw [show (preSoftmax (mkModule nh hd fmin F G cF sF) (hidRow b (nh * hd) H 1) none (fun _ => 1)
        (some (keyFull (mkModule nh hd fmin F G cF sF) (hidRow b (nh * hd) H 0) (fun _ => 0) none,
               valueFull (mkModule nh hd fmin F G cF sF) (hidRow b (nh * hd) H 0) none))).n3 = 2 from rfl]
  rw [show (preSoftmax (mkModule nh hd fmin F G cF sF) (hidPair b (nh * hd) H)
        (some (causalMask b mval)) (fun p => p) none).n3 = 2 from rfl]
  rw [key r hr]
  rw [Finset.sum_range_succ, Finset.sum_range_succ, Finset.sum_range_zero,
    Finset.sum_range_succ, Finset.sum_range_succ, Finset.sum_range_zero]
  rw [key 0 (by norm_num), key 1 (by norm_num)]

/-- The rank-4 attention outputs agree between the second decode call's row
and the single call's row 1, at every head and head-dim index. -/
theorem c3_out4 (b nh hd : ℕ) (fmin mval : ℝ) (F G : (ℕ → ℝ) → ℕ → ℝ)
    (cF sF : ℕ → ℕ → ℝ) (H : ℕ → ℕ → ℕ → ℝ)
    (hfm : ∀ i j r, r < 2 →
      fmin ≤ (rawScores (mkModule nh hd fmin F G cF sF) (hidPair b (nh * hd) H) (fun p => p) none).d i j 1 r)
    (i h t : ℕ) :
    (attnOut4 (mkModule nh hd fmin F G cF sF) (hidRow b (nh * hd) H 1) none (fun _ => 1)
      (some (keyFull (mkModule nh hd fmin F G cF sF) (hidRow b (nh * hd) H 0) (fun _ => 0) none,
             valueFull (mkModule nh hd fmin F G cF sF) (hidRow b (nh * hd) H 0) none))).d i h 0 t =
    (attnOut4 (mkModule nh hd fmin F G cF sF) (hidPair b (nh * hd) H)
      (some (causalMask b mval)) (fun p => p) none).d i h 1 t := by
  have hv : ∀ s, s < 2 →
      (valueFull (mkModule nh hd fmin F G cF sF) (hidRow b (nh * hd) H 1)
        (some (keyFull (mkModule nh hd fmin F G cF sF) (hidRow b (nh * hd) H 0) (fun _ => 0) none,
               valueFull (mkModule nh hd fmin F G cF sF) (hidRow b (nh * hd) H 0) none))).d i h s t =
      (valueFull (mkModule nh hd fmin F G cF sF) (hidPair b (nh * hd) H) none).d i h s t := by
    intro s hs
    interval_cases s
    · rfl
    · rfl
  show (∑ r ∈ Finset.range _, _ * _) = ∑ r ∈ Finset.range _, _ * _
  rw [show (attnWeights (mkModule nh hd fmin F G cF sF) (hidRow b (nh * hd) H 1) none (fun _ => 1)
        (some (keyFull (mkModule nh hd fmin F G cF sF) (hidRow b (nh * hd) H 0) (fun _ => 0) none,
               valueFull (mkModule nh hd fmin F G cF sF) (hidRow b (nh * hd) H 0) none))).n3 = 2 from rfl]
  rw [show (attnWeights (mkModule nh hd fmin F G cF sF) (hidPair b (nh * hd) H)
        (some (causalMask b mval)) (fun p => p) none).n3 = 2 from rfl]
  rw [Finset.sum_range_succ, Finset.sum_range_succ, Finset.sum_range_zero,
    Finset.sum_range_succ, Finset.sum_range_succ, Finset.sum_range_zero]
  rw [c3_weights b nh hd fmin mval F G cF sF H hfm i h 0 (by norm_num),
    c3_weights b nh hd fmin mval F G cF sF H hfm i h 1 (by norm_num),
    hv 0 (by norm_num), hv 1 (by norm_num)]

/-- The final outputs agree: second decode call's (only) position vs the
single call's position 1, at every batch and feature index. -/
theorem c3_final (b nh hd : ℕ) (fmin mval : ℝ) (F G : (ℕ → ℝ) → ℕ → ℝ)
    (cF sF : ℕ → ℕ → ℝ) (H : ℕ → ℕ → ℕ → ℝ)
    (hfm : ∀ i j r, r < 2 →
      fmin ≤ (rawScores (mkModule nh hd fmin F G cF sF) (hidPair b (nh * hd) H) (fun p => p) none).d i j 1 r)
    (i c : ℕ) :
    (attnFinal (mkModule nh hd fmin F G cF sF) (hidRow b (nh * hd) H 1) none (fun _ => 1)
      (some (keyFull (mkModule nh hd fmin F G cF sF) (hidRow b (nh * hd) H 0) (fun _ => 0) none,
             valueFull (mkModule nh hd fmin F G cF sF) (hidRow b (nh * hd) H 0) none))).d i 0 c =
    (attnFinal (mkModule nh hd fmin F G cF sF) (hidPair b (nh * hd) H)
      (some (causalMask b mval)) (fun p => p) none).d i 1 c := by
  have hrow : (fun x => (mergeHeads (transpose12 (attnOut4 (mkModule nh hd fmin F G cF sF)
        (hidRow b (nh * hd) H 1) none (fun _ => 1)
        (some (keyFull (mkModule nh hd fmin F G cF sF) (hidRow b (nh * hd) H 0) (fun _ => 0) none,
               valueFull (mkModule nh hd fmin F G cF sF) (hidRow b (nh * hd) H 0) none))))).d i 0 x)
      = (fun x => (mergeHeads (transpose12 (attnOut4 (mkModule nh hd fmin F G cF sF)
        (hidPair b (nh * hd) H) (some (causalMask b mval)) (fun p => p) none))).d i 1 x) := by
    funext x
    exact c3_out4 b nh hd fmin mval F G cF sF H hfm i (x / hd) (x % hd)
  exact congrFun (congrArg G hrow) c

/-- The first decode call (token 0, no past, cache enabled) succeeds. -/
theorem c3_call1_ok (b nh hd : ℕ) (fmin : ℝ) (F G : (ℕ → ℝ) → ℕ → ℝ)
    (cF sF : ℕ → ℕ → ℝ) (H : ℕ → ℕ → ℕ → ℝ) :
    (mkModule nh hd fmin F G cF sF).forward (hidRow b (nh * hd) H 0) none (fun _ => 0)
        none false true =
      .ok (attnFinal (mkModule nh hd fmin F G cF sF) (hidRow b (nh * hd) H 0) none (fun _ => 0) none,
           none,
           some (keyFull (mkModule nh hd fmin F G cF sF) (hidRow b (nh * hd) H 0) (fun _ => 0) none,
                 valueFull (mkModule nh hd fmin F G cF sF) (hidRow b (nh * hd) H 0) none)) := by
  have h := forward_of_checks (mkModule nh hd fmin F G cF sF) (hidRow b (nh * hd) H 0) none
    (fun _ => 0) none false true
    (by simp [viewOkB, qkvStates, mkModule, rowwiseMap, hidRow])
    rfl
    (by simp [qkOkB, rotPair, mkModule, apply_rotary_pos_emb, keyFull, key4, query4, value4,
      transpose23, transpose12, view4, sliceW, qkvStates, rowwiseMap, hidRow])
    rfl
    (fun m hm => by cases hm)
    (by simp [wvOkB, attnWeights, softmaxLast, preSoftmax, rawScores, divScalar, matmul4,
      rotPair, mkModule, apply_rotary_pos_emb, keyFull, valueFull, key4, query4, value4,
      transpose23, transpose12, view4, sliceW, qkvStates, rowwiseMap, hidRow])
    rfl
  simpa using h

/-- The second decode call (token 1, fed with the first call's cache)
succeeds, returning the concatenated cache. -/
theorem c3_call2_ok (b nh hd : ℕ) (fmin : ℝ) (F G : (ℕ → ℝ) → ℕ → ℝ)
    (cF sF : ℕ → ℕ → ℝ) (H : ℕ → ℕ → ℕ → ℝ) :
    (mkModule nh hd fmin F G cF sF).forward (hidRow b (nh * hd) H 1) none (fun _ => 1)
        (some (keyFull (mkModule nh hd fmin F G cF sF) (hidRow b (nh * hd) H 0) (fun _ => 0) none,
               valueFull (mkModule nh hd fmin F G cF sF) (hidRow b (nh * hd) H 0) none)) false true =
      .ok (attnFinal (mkModule nh hd fmin F G cF sF) (hidRow b (nh * hd) H 1) none (fun _ => 1)
             (some (keyFull (mkModule nh hd fmin F G cF sF) (hidRow b (nh * hd) H 0) (fun _ => 0) none,
                    valueFull (mkModule nh hd fmin F G cF sF) (hidRow b (nh * hd) H 0) none)),
           none,
           some (keyFull (mkModule nh hd fmin F G cF sF) (hidRow b (nh * hd) H 1) (fun _ => 1)
                   (some (keyFull (mkModule nh hd fmin F G cF sF) (hidRow b (nh * hd) H 0) (fun _ => 0) none,
                          valueFull (mkModule nh hd fmin F G cF sF) (hidRow b (nh * hd) H 0) none)),
                 valueFull (mkModule nh hd fmin F G cF sF) (hidRow b (nh * hd) H 1)
                   (some (keyFull (mkModule nh hd fmin F G cF sF) (hidRow b (nh * hd) H 0) (fun _ => 0) none,
                          valueFull (mkModule nh hd fmin F G cF sF) (hidRow b (nh * hd) H 0) none)))) := by
  have h := forward_of_checks (mkModule nh hd fmin F G cF sF) (hidRow b (nh * hd) H 1) none
    (fun _ => 1)
    (some (keyFull (mkModule nh hd fmin F G cF sF) (hidRow b (nh * hd) H 0) (fun _ => 0) none,
           valueFull (mkModule nh hd fmin F G cF sF) (hidRow b (nh * hd) H 0) none)) false true
    (by simp [viewOkB, qkvStates, mkModule, rowwiseMap, hidRow])
    (by simp [catOkB, rotPair, mkModule, apply_rotary_pos_emb, keyFull, valueFull, key4, query4,
      value4, transpose12, view4, sliceW, qkvStates, rowwiseMap, hidRow])
    (by simp [qkOkB, rotPair, mkModule, apply_rotary_pos_emb, keyFull, valueFull, key4, query4,
      value4, transpose23, transpose12, view4, sliceW, qkvStates, rowwiseMap, hidRow, cat2])
    rfl
    (fun m hm => by cases hm)
    (by simp [wvOkB, attnWeights, softmaxLast, preSoftmax, rawScores, divScalar, matmul4,
      rotPair, mkModule, apply_rotary_pos_emb, keyFull, valueFull, key4, query4, value4,
      transpose23, transpose12, view4, sliceW, qkvStates, rowwiseMap, hidRow, cat2])
    rfl
  simpa using h

/-- The single two-token causal call succeeds. -/
theorem c3_single_ok (b nh hd : ℕ) (fmin mval : ℝ) (F G : (ℕ → ℝ) → ℕ → ℝ)
    (cF sF : ℕ → ℕ → ℝ) (H : ℕ → ℕ → ℕ → ℝ) :
    (mkModule nh hd fmin F G cF sF).forward (hidPair b (nh * hd) H)
        (some (causalMask b mval)) (fun p => p) none false false =
      .ok (attnFinal (mkModule nh hd fmin F G cF sF) (hidPair b (nh * hd) H)
             (some (causalMask b mval)) (fun p => p) none, none, none) := by
  have h := forward_of_checks (mkModule nh hd fmin F G cF sF) (hidPair b (nh * hd) H)
    (some (causalMask b mval)) (fun p => p) none false false
    (by simp [viewOkB, qkvStates, mkModule, rowwiseMap, hidPair])
    rfl
    (by simp [qkOkB, rotPair, mkModule, apply_rotary_pos_emb, keyFull, key4, query4, value4,
      transpose23, transpose12, view4, sliceW, qkvStates, rowwiseMap, hidPair])
    rfl
    (fun m hm => by cases hm; rfl)
    (by simp [wvOkB, attnWeights, softmaxLast, preSoftmax, rawScores, divScalar, matmul4,
      rotPair, mkModule, apply_rotary_pos_emb, keyFull, valueFull, key4, query4, value4,
      transpose23, transpose12, view4, sliceW, qkvStates, rowwiseMap, hidPair, clampMin, addMask])
    rfl
  simpa using h

/-- C3 (amended): over a module wired to the spec-modelled row-wise
projections and position-indexed rotary tables, two sequential cache-enabled
decode calls (seq_len = 1 each) both succeed, the second call's cache has
total_kv_len = 2, and — provided the raw scores at the second position stay
above the clamp floor fmin — the second call's output equals the single
no-cache causal two-token call's output at the second sequence position, at
every batch and feature index.  (Exact equality at the first position fails
in exact arithmetic; see the counterexample.) -/
theorem cache_equivalence_second_position (b nh hd : ℕ) (fmin mval : ℝ)
    (F G : (ℕ → ℝ) → ℕ → ℝ) (cF sF : ℕ → ℕ → ℝ) (H : ℕ → ℕ → ℕ → ℝ)
    (hfm : ∀ i j r, r < 2 →
      fmin ≤ (rawScores (mkModule nh hd fmin F G cF sF) (hidPair b (nh * hd) H)
        (fun p => p) none).d i j 1 r) :
    (mkModule nh hd fmin F G cF sF).forward (hidRow b (nh * hd) H 0) none (fun _ => 0)
        none false true =
      .ok (attnFinal (mkModule nh hd fmin F G cF sF) (hidRow b (nh * hd) H 0) none (fun _ => 0) none,
           none,
           some (keyFull (mkModule nh hd fmin F G cF sF) (hidRow b (nh * hd) H 0) (fun _ => 0) none,
                 valueFull (mkModule nh hd fmin F G cF sF) (hidRow b (nh * hd) H 0) none)) ∧
    (mkModule nh hd fmin F G cF sF).forward (hidRow b (nh * hd) H 1) none (fun _ => 1)
        (some (keyFull (mkModule nh hd fmin F G cF sF) (hidRow b (nh * hd) H 0) (fun _ => 0) none,
               valueFull (mkModule nh hd fmin F G cF sF) (hidRow b (nh * hd) H 0) none)) false true =
      .ok (attnFinal (mkModule nh hd fmin F G cF sF) (hidRow b (nh * hd) H 1) none (fun _ => 1)
             (some (keyFull (mkModule nh hd fmin F G cF sF) (hidRow b (nh * hd) H 0) (fun _ => 0) none,
                    valueFull (mkModule nh hd fmin F G cF sF) (hidRow b (nh * hd) H 0) none)),
           none,
           some (keyFull (mkModule nh hd fmin F G cF sF) (hidRow b (nh * hd) H 1) (fun _ => 1)
                   (some (keyFull (mkModule nh hd fmin F G cF sF) (hidRow b (nh * hd) H 0) (fun _ => 0) none,
                          valueFull (mkModule nh hd fmin F G cF sF) (hidRow b (nh * hd) H 0) none)),
                 valueFull (mkModule nh hd fmin F G cF sF) (hidRow b (nh * hd) H 1)
                   (some (keyFull (mkModule nh hd fmin F G cF sF) (hidRow b (nh * hd) H 0) (fun _ => 0) none,
                          valueFull (mkModule nh hd fmin F G cF sF) (hidRow b (nh * hd) H 0) none)))) ∧
    (keyFull (mkModule nh hd fmin F G cF sF) (hidRow b (nh * hd) H 1) (fun _ => 1)
      (some (keyFull (mkModule nh hd fmin F G cF sF) (hidRow b (nh * hd) H 0) (fun _ => 0) none,
             valueFull (mkModule nh hd fmin F G cF sF) (hidRow b (nh * hd) H 0) none))).n2 = 2 ∧
    (valueFull (mkModule nh hd fmin F G cF sF) (hidRow b (nh * hd) H 1)
      (some (keyFull (mkModule nh hd fmin F G cF sF) (hidRow b (nh * hd) H 0) (fun _ => 0) none,
             valueFull (mkModule nh hd fmin F G cF sF) (hidRow b (nh * hd) H 0) none))).n2 = 2 ∧
    (mkModule nh hd fmin F G cF sF).forward (hidPair b (nh * hd) H)
        (some (causalMask b mval)) (fun p => p) none false false =
      .ok (attnFinal (mkModule nh hd fmin F G cF sF) (hidPair b (nh * hd) H)
             (some (causalMask b mval)) (fun p => p) none, none, none) ∧
    (∀ i c,
      (attnFinal (mkModule nh hd fmin F G cF sF) (hidRow b (nh * hd) H 1) none (fun _ => 1)
        (some (keyFull (mkModule nh hd fmin F G cF sF) (hidRow b (nh * hd) H 0) (fun _ => 0) none,
               valueFull (mkModule nh hd fmin F G cF sF) (hidRow b (nh * hd) H 0) none))).d i 0 c =
      (attnFinal (mkModule nh hd fmin F G cF sF) (hidPair b (nh * hd) H)
        (some (causalMask b mval)) (fun p => p) none).d i 1 c) :=
  ⟨c3_call1_ok b nh hd fmin F G cF sF H,
   c3_call2_ok b nh hd fmin F G cF sF H,
   rfl, rfl,
   c3_single_ok b nh hd fmin mval F G cF sF H,
   fun i c => c3_final b nh hd fmin mval F G cF sF H hfm i c⟩

theorem cache_equivalence_second_position_witness :
    (keyFull (mkModule 1 1 0 F0 F0 cF0 cF0) (hidRow 1 1 H0 1) (fun _ => 1)
      (some (keyFull (mkModule 1 1 0 F0 F0 cF0 cF0) (hidRow 1 1 H0 0) (fun _ => 0) none,
             valueFull (mkModule 1 1 0 F0 F0 cF0 cF0) (hidRow 1 1 H0 0) none))).n2 = 2 :=
  (cache_equivalence_second_position 1 1 1 0 0 F0 F0 cF0 cF0 H0 (by
    intro i j r hr
    show (0 : ℝ) ≤ _
    norm_num [rawScores, divScalar, matmul4, rotPair, mkModule, apply_rotary_pos_emb,
      specRotaryEmb, keyFull, key4, query4, value4, transpose23, transpose12, view4, sliceW,
      qkvStates, rowwiseMap, hidPair, F0, cF0, rotate_half,
      Finset.sum_range_succ, Finset.sum_range_zero])).2.2.1

/-- C3 (counterexample): with one head of dimension one, zero-valued queries
and keys, values equal to the token value (token 0 maps to 0, token 1 to 1),
identity rotary, fmin = -1 and causal mask value -1, both runs succeed, yet
at the first sequence position the decode call outputs exactly 0 while the
single causal call outputs exp(-1)/(1 + exp(-1)) > 0: the clamped finite
mask leaves positive softmax weight on the masked future key, so the
claimed exact equality of outputs fails in exact arithmetic (it only holds
up to floating-point underflow of exp applied to the minimum finite
value). -/
theorem cache_equivalence_first_position_fails :
    MX.forward (hidRow 1 1 HX 0) none (fun _ => 0) none false true =
      .ok (attnFinal MX (hidRow 1 1 HX 0) none (fun _ => 0) none, none,
           some (keyFull MX (hidRow 1 1 HX 0) (fun _ => 0) none,
                 valueFull MX (hidRow 1 1 HX 0) none)) ∧
    MX.forward (hidPair 1 1 HX) (some (causalMask 1 (-1))) (fun p => p) none false false =
      .ok (attnFinal MX (hidPair 1 1 HX) (some (causalMask 1 (-1))) (fun p => p) none,
           none, none) ∧
    (attnFinal MX (hidRow 1 1 HX 0) none (fun _ => 0) none).d 0 0 0 = 0 ∧
    (attnFinal MX (hidPair 1 1 HX) (some (causalMask 1 (-1))) (fun p => p) none).d 0 0 0 =
      Real.exp (-1) / (1 + Real.exp (-1)) ∧
    (attnFinal MX (hidRow 1 1 HX 0) none (fun _ => 0) none).d 0 0 0 ≠
      (attnFinal MX (hidPair 1 1 HX) (some (causalMask 1 (-1))) (fun p => p) none).d 0 0 0 := by
  have h1 : (attnFinal MX (hidRow 1 1 HX 0) none (fun _ => 0) none).d 0 0 0 = 0 := by
    norm_num [MX, attnFinal, mkModule, rowwiseMap, GX, mergeHeads, transpose12, attnOut4, matmul4,
      attnWeights, softmaxLast, preSoftmax, rawScores, divScalar, rotPair, apply_rotary_pos_emb,
      keyFull, valueFull, key4, query4, value4, transpose23, view4, sliceW, qkvStates, hidRow,
      FX, HX, cF1, cF0, rotate_half, specRotaryEmb, Finset.sum_range_succ, Finset.sum_range_zero,
      Real.sqrt_one]
  have h2 : (attnFinal MX (hidPair 1 1 HX) (some (causalMask 1 (-1))) (fun p => p) none).d 0 0 0 =
      Real.exp (-1) / (1 + Real.exp (-1)) := by
    norm_num [MX, attnFinal, mkModule, rowwiseMap, GX, mergeHeads, transpose12, attnOut4, matmul4,
      attnWeights, softmaxLast, preSoftmax, rawScores, divScalar, rotPair, apply_rotary_pos_emb,
      keyFull, valueFull, key4, query4, value4, transpose23, view4, sliceW, qkvStates, hidPair,
      FX, HX, cF1, cF0, rotate_half, specRotaryEmb, causalMask, clampMin, addMask,
      Finset.sum_range_succ, Finset.sum_range_zero, Real.sqrt_one, Real.exp_zero]
  refine ⟨c3_call1_ok 1 1 1 (-1) FX GX cF1 cF0 HX,
    c3_single_ok 1 1 1 (-1) (-1) FX GX cF1 cF0 HX, h1, h2, ?_⟩
  rw [h1, h2]
  have hpos : 0 < Real.exp (-1) / (1 + Real.exp (-1)) := by positivity
  exact ne_of_lt hpos

/-- C5: when a mask is given, its shape is validated against
(batch, 1, seq_len, total_kv_len) — a mismatch fails the call with the
ShapeMismatch error carrying that expected shape and the mask's actual
shape; on a match the call succeeds, the softmax input is exactly the raw
scores plus the mask clamped below at fmin, every element of that input is
at least fmin, and a row whose masked scores all fall at or below fmin
yields the uniform softmax value 1/total_kv_len (no NaN). -/
theorem mask_validate_add_clamp (M : QuantLlamaAttention) (hidden : T3) (m : T4)
    (posIds : ℕ → ℕ) (past : Option (T4 × T4)) (oa uc : Bool)
    (h1 : viewOkB M hidden = true)
    (h2 : catOkB past (rotPair M hidden posIds past).2 (value4 M hidden) = true)
    (h3 : qkOkB (rotPair M hidden posIds past).1
      (transpose23 (keyFull M hidden posIds past)) = true)
    (h4 : (rawScores M hidden posIds past).shape =
      [hidden.n0, M.num_heads, hidden.n1, kvSeqLen hidden past])
    (h6 : wvOkB (attnWeights M hidden (some m) posIds past) (valueFull M hidden past) = true)
    (h7 : (attnOut4 M hidden (some m) posIds past).shape =
      [hidden.n0, M.num_heads, hidden.n1, M.head_dim]) :
    (m.shape ≠ [hidden.n0, 1, hidden.n1, kvSeqLen hidden past] →
      M.forward hidden (some m) posIds past oa uc =
        .error (.shapeMismatch [hidden.n0, 1, hidden.n1, kvSeqLen hidden past] m.shape)) ∧
    (m.shape = [hidden.n0, 1, hidden.n1, kvSeqLen hidden past] →
      M.forward hidden (some m) posIds past oa uc =
        .ok (attnFinal M hidden (some m) posIds past,
             if oa then some (attnWeights M hidden (some m) posIds past) else none,
             if uc then some (keyFull M hidden posIds past, valueFull M hidden past) else none)) ∧
    preSoftmax M hidden (some m) posIds past =
      clampMin (addMask (rawScores M hidden posIds past) m) M.fmin ∧
    (∀ i j p r, M.fmin ≤ (preSoftmax M hidden (some m) posIds past).d i j p r) ∧
    (∀ i j p, (∀ r, r < kvSeqLen hidden past →
        (rawScores M hidden posIds past).d i j p r + m.d i 0 p r ≤ M.fmin) →
      ∀ r, r < kvSeqLen hidden past →
        (attnWeights M hidden (some m) posIds past).d i j p r =
          1 / (kvSeqLen hidden past : ℝ)) := by
  refine ⟨?_, ?_, rfl, ?_, ?_⟩
  · intro hne
    simp [QuantLlamaAttention.forward, h1, h2, h3, weightsSizeCheck, h4, maskSizeCheck, hne]
  · intro heq
    exact forward_of_checks M hidden (some m) posIds past oa uc h1 h2 h3 h4
      (fun m' hm' => by cases hm'; exact heq) h6 h7
  · intro i j p r
    exact le_max_right _ _
  · intro i j p hrow r hr
    have hn3 : (preSoftmax M hidden (some m) posIds past).n3 = kvSeqLen hidden past := by
      have h4' := h4
      simp only [T4.shape, List.cons.injEq, and_true] at h4'
      exact h4'.2.2.2
    have hpre : ∀ s, s < kvSeqLen hidden past →
        (preSoftmax M hidden (some m) posIds past).d i j p s = M.fmin := by
      intro s hs
      show max ((rawScores M hidden posIds past).d i j p s + m.d i 0 p s) M.fmin = M.fmin
      exact max_eq_right (hrow s hs)
    show Real.exp ((preSoftmax M hidden (some m) posIds past).d i j p r) /
        (∑ e ∈ Finset.range (preSoftmax M hidden (some m) posIds past).n3,
          Real.exp ((preSoftmax M hidden (some m) posIds past).d i j p e)) =
      1 / (kvSeqLen hidden past : ℝ)
    rw [hn3, hpre r hr]
    rw [Finset.sum_congr rfl (fun e he => by rw [hpre e (Finset.mem_range.mp he)])]
    rw [Finset.sum_const, Finset.card_range, nsmul_eq_mul]
    have hkv : 0 < kvSeqLen hidden past := by omega
    rw [div_eq_div_iff (by positivity) (by positivity)]
    ring

theorem mask_validate_add_clamp_witness :
    M0.forward (hidRow 1 1 H0 0) (some badMask) (fun _ => 0) none false false =
      .error (.shapeMismatch [1, 1, 1, 1] [5, 5, 5, 5]) :=
  (mask_validate_add_clamp M0 (hidRow 1 1 H0 0) badMask (fun _ => 0) none false false
    rfl rfl rfl rfl rfl rfl).1 (by decide)

/-- C6 (counterexample): a run in which the (external) rotary collaborator
returns a wrongly-shaped query makes the raw attention-weights shape deviate
from its contract; the call does fail, but the error payload describes the
expected shape as the collapsed 3-tuple (batch*heads, seq_len, kv_len) —
exactly as the source's message interpolates it — not as the 4-D shape
(batch, heads, seq_len, kv_len) that the check compares against.  The claim
that the error describes the expected shape is therefore false for this
check. -/
theorem weights_check_payload_collapsed :
    Mc6.forward (hidRow 1 1 H0 0) none (fun p => p) none false false =
      .error (.shapeMismatch [1, 1, 1] [1, 1, 2, 1]) ∧
    ([1, 1, 1] : List ℕ) ≠ [1, 1, 1, 1] ∧
    AttnErr.shapeMismatch [1, 1, 1] [1, 1, 2, 1] ≠
      AttnErr.shapeMismatch [1, 1, 1, 1] [1, 1, 2, 1] := by
  refine ⟨?_, by decide, by decide⟩
  rfl

/-- C6 (amended): whenever the raw attention-weights shape deviates from
(batch, heads, seq_len, total_kv_len) the call fails with ShapeMismatch
whose payload reports the actual shape but states the expected shape in the
collapsed 3-D form (batch*heads, seq_len, kv_len); the attention-output
check reports the true 4-D expected shape together with the actual one.  No
shape deviation is silently corrected. -/
theorem shape_checks_error_payloads :
    (∀ (M : QuantLlamaAttention) (hidden : T3) (mask : Option T4) (posIds : ℕ → ℕ)
        (past : Option (T4 × T4)) (oa uc : Bool),
      viewOkB M hidden = true →
      catOkB past (rotPair M hidden posIds past).2 (value4 M hidden) = true →
      qkOkB (rotPair M hidden posIds past).1
        (transpose23 (keyFull M hidden posIds past)) = true →
      (rawScores M hidden posIds past).shape ≠
        [hidden.n0, M.num_heads, hidden.n1, kvSeqLen hidden past] →
      M.forward hidden mask posIds past oa uc =
        .error (.shapeMismatch [hidden.n0 * M.num_heads, hidden.n1, kvSeqLen hidden past]
          (rawScores M hidden posIds past).shape)) ∧
    (∀ (t : T4) (bsz nh qLen hd : ℕ), t.shape ≠ [bsz, nh, qLen, hd] →
      outputSizeCheck t bsz nh qLen hd = .error (.shapeMismatch [bsz, nh, qLen, hd] t.shape)) := by
  constructor
  · intro M hidden mask posIds past oa uc h1 h2 h3 hne
    simp [QuantLlamaAttention.forward, h1, h2, h3, weightsSizeCheck, hne]
  · intro t bsz nh qLen hd hne
    simp [outputSizeCheck, hne]

theorem shape_checks_error_payloads_witness :
    outputSizeCheck badMask 1 1 1 1 = .error (.shapeMismatch [1, 1, 1, 1] [5, 5, 5, 5]) :=
  shape_checks_error_payloads.2 badMask 1 1 1 1 (by decide)

/-- C7: total_kv_len is seq_len plus the cached length (and just seq_len
with no past entry); with a past entry, the key used for scoring and
caching is the cached key concatenated before the new (rotated) key along
the sequence axis — entries below the cached length read the cache,
entries above read the new key — likewise the value; the raw scores are
computed from that concatenation, and the call succeeds returning it as the
new cache. -/
theorem kv_cache_concat_scoring (M : QuantLlamaAttention) (hidden : T3)
    (posIds : ℕ → ℕ) (pk pv : T4) (oa uc : Bool)
    (h1 : viewOkB M hidden = true)
    (h2 : catOkB (some (pk, pv)) (rotPair M hidden posIds (some (pk, pv))).2
      (value4 M hidden) = true)
    (h3 : qkOkB (rotPair M hidden posIds (some (pk, pv))).1
      (transpose23 (keyFull M hidden posIds (some (pk, pv)))) = true)
    (h4 : (rawScores M hidden posIds (some (pk, pv))).shape =
      [hidden.n0, M.num_heads, hidden.n1, kvSeqLen hidden (some (pk, pv))])
    (h6 : wvOkB (attnWeights M hidden none posIds (some (pk, pv)))
      (valueFull M hidden (some (pk, pv))) = true)
    (h7 : (attnOut4 M hidden none posIds (some (pk, pv))).shape =
      [hidden.n0, M.num_heads, hidden.n1, M.head_dim]) :
    kvSeqLen hidden (some (pk, pv)) = hidden.n1 + pk.n2 ∧
    kvSeqLen hidden none = hidden.n1 ∧
    keyFull M hidden posIds (some (pk, pv)) =
      cat2 pk (rotPair M hidden posIds (some (pk, pv))).2 ∧
    valueFull M hidden (some (pk, pv)) = cat2 pv (value4 M hidden) ∧
    (keyFull M hidden posIds (some (pk, pv))).n2 =
      pk.n2 + (rotPair M hidden posIds (some (pk, pv))).2.n2 ∧
    (∀ i j r l, r < pk.n2 →
      (keyFull M hidden posIds (some (pk, pv))).d i j r l = pk.d i j r l) ∧
    (∀ i j r l, pk.n2 ≤ r →
      (keyFull M hidden posIds (some (pk, pv))).d i j r l =
        (rotPair M hidden posIds (some (pk, pv))).2.d i j (r - pk.n2) l) ∧
    rawScores M hidden posIds (some (pk, pv)) =
      divScalar (matmul4 (rotPair M hidden posIds (some (pk, pv))).1
        (transpose23 (cat2 pk (rotPair M hidden posIds (some (pk, pv))).2)))
        (Real.sqrt (M.head_dim : ℝ)) ∧
    M.forward hidden none posIds (some (pk, pv)) oa uc =
      .ok (attnFinal M hidden none posIds (some (pk, pv)),
           if oa then some (attnWeights M hidden none posIds (some (pk, pv))) else none,
           if uc then some (keyFull M hidden posIds (some (pk, pv)),
                            valueFull M hidden (some (pk, pv))) else none) := by
  refine ⟨rfl, rfl, rfl, rfl, rfl, ?_, ?_, rfl, ?_⟩
  · intro i j r l hrl
    show (if r < pk.n2 then pk.d i j r l else _) = pk.d i j r l
    exact if_pos hrl
  · intro i j r l hle
    show (if r < pk.n2 then pk.d i j r l else _) = _
    exact if_neg (not_lt.mpr hle)
  · exact forward_of_checks M hidden none posIds (some (pk, pv)) oa uc h1 h2 h3 h4
      (fun m hm => by cases hm) h6 h7

theorem kv_cache_concat_scoring_witness :
    kvSeqLen (hidRow 1 1 H0 0) (some (pastK1, pastK1)) = 2 ∧
    (keyFull M0 (hidRow 1 1 H0 0) (fun _ => 0) (some (pastK1, pastK1))).n2 = 2 :=
  ⟨(kv_cache_concat_scoring M0 (hidRow 1 1 H0 0) (fun _ => 0) pastK1 pastK1 false false
      rfl rfl rfl rfl rfl rfl).1,
   (kv_cache_concat_scoring M0 (hidRow 1 1 H0 0) (fun _ => 0) pastK1 pastK1 false false
      rfl rfl rfl rfl rfl rfl).2.2.2.2.1⟩

/-- C9: a successful forward call always returns the attention output; the
softmax-normalized weights are present in the returned triple exactly when
output_attentions is true, and the updated cache entry exactly when
use_cache is true. -/
theorem forward_return_arity (M : QuantLlamaAttention) (hidden : T3) (mask : Option T4)
    (posIds : ℕ → ℕ) (past : Option (T4 × T4)) (oa uc : Bool)
    (h1 : viewOkB M hidden = true)
    (h2 : catOkB past (rotPair M hidden posIds past).2 (value4 M hidden) = true)
    (h3 : qkOkB (rotPair M hidden posIds past).1
      (transpose23 (keyFull M hidden posIds past)) = true)
    (h4 : (rawScores M hidden posIds past).shape =
      [hidden.n0, M.num_heads, hidden.n1, kvSeqLen hidden past])
    (h5 : ∀ m, mask = some m → m.shape = [hidden.n0, 1, hidden.n1, kvSeqLen hidden past])
    (h6 : wvOkB (attnWeights M hidden mask posIds past) (valueFull M hidden past) = true)
    (h7 : (attnOut4 M hidden mask posIds past).shape =
      [hidden.n0, M.num_heads, hidden.n1, M.head_dim]) :
    M.forward hidden mask posIds past oa uc =
      .ok (attnFinal M hidden mask posIds past,
           if oa then some (attnWeights M hidden mask posIds past) else none,
           if uc then some (keyFull M hidden posIds past, valueFull M hidden past) else none) ∧
    ((if oa then some (attnWeights M hidden mask posIds past) else none) = none ↔ oa = false) ∧
    ((if uc then some (keyFull M hidden posIds past, valueFull M hidden past) else none) = none
      ↔ uc = false) :=
  ⟨forward_of_checks M hidden mask posIds past oa uc h1 h2 h3 h4 h5 h6 h7,
   by cases oa <;> simp, by cases uc <;> simp⟩

theorem forward_return_arity_witness :
    M0.forward (hidRow 1 1 H0 0) none (fun _ => 0) none true true =
      .ok (attnFinal M0 (hidRow 1 1 H0 0) none (fun _ => 0) none,
           some (attnWeights M0 (hidRow 1 1 H0 0) none (fun _ => 0) none),
           some (keyFull M0 (hidRow 1 1 H0 0) (fun _ => 0) none,
                 valueFull M0 (hidRow 1 1 H0 0) none)) :=
  (forward_return_arity M0 (hidRow 1 1 H0 0) none (fun _ => 0) none true true
    rfl rfl rfl rfl (fun m hm => by cases hm) rfl rfl).1

/-- C10: when no mask is given, no clamping happens: the softmax input is
exactly the raw scores — in particular any score below fmin stays below
fmin — and the call returns the softmax of the unclamped raw scores as its
attention weights. -/
theorem no_clamp_without_mask (M : QuantLlamaAttention) (hidden : T3)
    (posIds : ℕ → ℕ) (past : Option (T4 × T4)) (uc : Bool)
    (h1 : viewOkB M hidden = true)
    (h2 : catOkB past (rotPair M hidden posIds past).2 (value4 M hidden) = true)
    (h3 : qkOkB (rotPair M hidden posIds past).1
      (transpose23 (keyFull M hidden posIds past)) = true)
    (h4 : (rawScores M hidden posIds past).shape =
      [hidden.n0, M.num_heads, hidden.n1, kvSeqLen hidden past])
    (h6 : wvOkB (attnWeights M hidden none posIds past) (valueFull M hidden past) = true)
    (h7 : (attnOut4 M hidden none posIds past).shape =
      [hidden.n0, M.num_heads, hidden.n1, M.head_dim]) :
    preSoftmax M hidden none posIds past = rawScores M hidden posIds past ∧
    attnWeights M hidden none posIds past = softmaxLast (rawScores M hidden posIds past) ∧
    (∀ i j p r, (rawScores M hidden posIds past).d i j p r < M.fmin →
      (preSoftmax M hidden none posIds past).d i j p r < M.fmin) ∧
    M.forward hidden none posIds past true uc =
      .ok (attnFinal M hidden none posIds past,
           some (attnWeights M hidden none posIds past),
           if uc then some (keyFull M hidden posIds past, valueFull M hidden past) else none) := by
  refine ⟨rfl, rfl, fun i j p r h => h, ?_⟩
  have h := forward_of_checks M hidden none posIds past true uc h1 h2 h3 h4
    (fun m hm => by cases hm) h6 h7
  simpa using h

theorem no_clamp_without_mask_witness :
    M0.forward (hidRow 1 1 H0 0) none (fun _ => 0) none true false =
      .ok (attnFinal M0 (hidRow 1 1 H0 0) none (fun _ => 0) none,
           some (attnWeights M0 (hidRow 1 1 H0 0) none (fun _ => 0) none),
           none) :=
  (no_clamp_without_mask M0 (hidRow 1 1 H0 0) (fun _ => 0) none false
    rfl rfl rfl rfl rfl rfl).2.2.2

end GPTQ
